import Mathlib

/-!
Shallow embedding of `pyhspf/calibration/autocalibrator.py` (class `AutoCalibrator`).

Numbers are modelled as exact rationals (`ℚ`); Python exceptions as the
inductive `PyExc` (a bare `raise` with no active exception raises Python's
built-in `RuntimeError`); the external simulation engine (`self.run` on a
copied model) as an abstract objective function `eval : List ℚ → ℚ`,
deterministic as the spec requires; IEEE special values produced by
`numpy.log` on non-positive arguments as the carrier `NFloat`.
-/

namespace AutoCal

/-- Python exception classes relevant to the calibrator, together with the
error names the design document postulates (which never occur in the code). -/
inductive PyExc where
  | RuntimeError
  | KeyError
  | IndexError
  | ValueError
  | InvalidValueError
  | BatchTimeoutError
  | BatchExecutionError
  | ConfigurationError
deriving DecidableEq

/-- Python's `round(x, 3)` (banker's rounding, half to even), modelled exactly
on rationals: round `x * 1000` to the nearest integer, ties to even, then
divide by 1000.  Used at `autocalibrator.py:410` and `:431`. -/
def pyround3 (q : ℚ) : ℚ :=
  (let s := q * 1000
   let f := ⌊s⌋
   let r := s - (f : ℚ)
   ((if r < 1/2 then f
     else if (1 : ℚ)/2 < r then f + 1
     else if f % 2 = 0 then f else f + 1 : ℤ) : ℚ)) / 1000

/-- The per-round update loop of `AutoCalibrator.optimize`
(`autocalibrator.py:406-411` and `:427-432`): for each index `i`, if the
sensitivity is strictly positive, the value becomes
`round(values[i] + perturbations[i], 3)`; otherwise it is untouched.
Call sites keep the three lists the same length (Python would raise
`IndexError` otherwise); extra values are returned unchanged. -/
def update_values : List ℚ → List ℚ → List ℚ → List ℚ
  | v :: vs, p :: ps, s :: ss =>
      (if 0 < s then pyround3 (v + p) else v) :: update_values vs ps ss
  | vs, _, _ => vs

/-- Embeds `sensitivities = [o - optimizations[0] for o in optimizations[1:]]`
(`autocalibrator.py:339`).  On the empty list Python's slice `[1:]` is empty,
so `optimizations[0]` is never evaluated. -/
def compute_sensitivities : List ℚ → List ℚ
  | [] => []
  | b :: ts => ts.map (fun o => o - b)

/-- Embeds `adjustment = self.values[:]; adjustment[i] += p`
(`autocalibrator.py:295-296`): add `p` at index `i` of a value-copy.
Out-of-range `i` would be a Python `IndexError`; unreachable at call sites. -/
def add_at : List ℚ → ℕ → ℚ → List ℚ
  | [], _, _ => []
  | v :: vs, 0, p => (v + p) :: vs
  | v :: vs, Nat.succ n, p => v :: add_at vs n p

/-- The loop of `autocalibrator.py:292-297` building one adjusted value-copy
per perturbation, the `i`-th copy perturbed at coordinate `i` (starting from
offset `k`). -/
def adjustments_from (values : List ℚ) (k : ℕ) : List ℚ → List (List ℚ)
  | [] => []
  | p :: ps => add_at values k p :: adjustments_from values (k + 1) ps

/-- The `adjustments` list of `AutoCalibrator.perturb` (`autocalibrator.py:292-297`). -/
def perturb_adjustments (values perts : List ℚ) : List (List ℚ) :=
  adjustments_from values 0 perts

/-- Zip of variable names, perturbations and adjusted vectors
(`[[v, p, a] for v, p, a in zip(*its)]`, `autocalibrator.py:304`);
`zip` truncates to the shortest list. -/
def trial_list : List String → List ℚ → List (List ℚ) →
    List (String × ℚ × List ℚ)
  | v :: vs, p :: ps, a :: as_ => (v, p, a) :: trial_list vs ps as_
  | _, _, _ => []

/-- Embeds `simulations = [['baseline', 0, self.values]] + [[v, p, a] ...]`
(`autocalibrator.py:302-304`): the baseline trial followed by one perturbed
trial per calibration variable. -/
def simulations (vars : List String) (values perts : List ℚ) :
    List (String × ℚ × List ℚ) :=
  ("baseline", 0, values) :: trial_list vars perts (perturb_adjustments values perts)

/-- Embeds `AutoCalibrator.perturb` after the trial results are in
(`autocalibrator.py:337-345`): each trial's objective is the abstract
deterministic `eval` of its vector; returns the sensitivities and the
baseline objective (`self.value = optimizations[0]`). -/
def perturb_step (eval : List ℚ → ℚ) (vars : List String)
    (values perts : List ℚ) : List ℚ × ℚ :=
  let optimizations := (simulations vars values perts).map (fun t => eval t.2.2)
  (compute_sensitivities optimizations, optimizations.headD 0)

/-- The mutable calibration state of `AutoCalibrator.optimize`:
`self.values` (current parameter vector) and `self.value` (objective of the
most recently evaluated baseline). -/
structure OptState where
  values : List ℚ
  value : ℚ
deriving DecidableEq

/-- One perturbation round of `AutoCalibrator.optimize`
(`autocalibrator.py:401-411` resp. `:422-432`): run `perturb` (which stores
the baseline objective in `self.value`), then apply the sensitivity-gated
update to each value. -/
def do_round (eval : List ℚ → ℚ) (vars : List String) (perts : List ℚ)
    (st : OptState) : OptState :=
  let sb := perturb_step eval vars st.values perts
  { values := update_values st.values perts sb.1, value := sb.2 }

/-- Embeds `AutoCalibrator.check_variables` (`autocalibrator.py:363-382`): walk the
variables, compare each value against its configured range, print a warning
and overwrite with the violated bound.  Both `if`s test the value read before
any assignment.  Returns the corrected values and the list of diagnostics
`(variable, offending value, bound applied)`.  Extra values beyond the
variable list are untouched (the Python loop runs over
`range(len(self.variables))`); a variable list longer than the values would
be a Python `IndexError`, unreachable at call sites. -/
def check_variables (ranges : String → ℚ × ℚ) :
    List String → List ℚ → List ℚ × List (String × ℚ × ℚ)
  | [], xs => (xs, [])
  | _ :: _, [] => ([], [])
  | v :: vs, x :: xs =>
      let mi := (ranges v).1
      let ma := (ranges v).2
      let newx := if ma < x then ma else if x < mi then mi else x
      let ds := (if x < mi then [(v, x, mi)] else []) ++
                (if ma < x then [(v, x, ma)] else [])
      let rest := check_variables ranges vs xs
      (newx :: rest.1, ds ++ rest.2)

/-- One iteration of the `while` loop in `AutoCalibrator.optimize`
(`autocalibrator.py:391-450`): a positive round, then a negative round with
the perturbations negated, then the perturbations are restored (pure here,
since they are passed explicitly) and `check_variables` clamps the vector. -/
def round_pair (eval : List ℚ → ℚ) (vars : List String)
    (ranges : String → ℚ × ℚ) (perts : List ℚ) (st : OptState) : OptState :=
  let st1 := do_round eval vars perts st
  let st2 := do_round eval vars (perts.map (fun p => -p)) st1
  { values := (check_variables ranges vars st2.values).1, value := st2.value }

/-- The `while current < self.value` loop of `AutoCalibrator.optimize`
(`autocalibrator.py:389-391`), fuel-indexed: `current` is initialised to
`self.value - 1`, so the body always runs at least once; after each
positive+negative pair the loop continues iff the stored objective strictly
increased over its value at the top of the iteration.  `none` models
non-termination within the given fuel. -/
def optimize_go (eval : List ℚ → ℚ) (vars : List String)
    (ranges : String → ℚ × ℚ) (perts : List ℚ) :
    ℕ → OptState → Option OptState
  | 0, _ => none
  | Nat.succ f, st =>
      let st2 := round_pair eval vars ranges perts st
      if st.value < st2.value then optimize_go eval vars ranges perts f st2
      else some st2

/-- Left-to-right sequencing of fallible results: the first exception
propagates unchanged, otherwise all results are collected in order.  This is
how a Python list comprehension over a throwing function behaves. -/
def collect : List (Except PyExc ℚ) → Except PyExc (List ℚ)
  | [] => .ok []
  | o :: os =>
      match o with
      | .error e => .error e
      | .ok x =>
          match collect os with
          | .error e => .error e
          | .ok xs => .ok (x :: xs)

/-- Embeds `AutoCalibrator.get_default` (`autocalibrator.py:347-361`): the intrinsic
perturbation step per variable; an unknown name prints an error and executes
a bare `raise`, i.e. Python's `RuntimeError`. -/
def get_default (v : String) : Except PyExc ℚ :=
  if v = "LZSN" then .ok 0.05
  else if v = "UZSN" then .ok 0.05
  else if v = "LZETP" then .ok 0.02
  else if v = "INFILT" then .ok 0.04
  else if v = "INTFW" then .ok 0.01
  else if v = "IRC" then .ok 0.02
  else if v = "AGWRC" then .ok 0.005
  else if v = "DEEPFR" then .ok 0.01
  else .error .RuntimeError

/-- Embeds `[self.get_default(v) for v in variables]` (`autocalibrator.py:509`):
the default steps of all calibration variables in order; the first unknown
name's exception propagates. -/
def defaults_of : List String → Except PyExc (List ℚ)
  | [] => .ok []
  | v :: vs =>
      match get_default v with
      | .error e => .error e
      | .ok d =>
          match defaults_of vs with
          | .error e => .error e
          | .ok ds => .ok (d :: ds)

/-- The scale loop of `AutoCalibrator.autocalibrate`
(`autocalibrator.py:507-510`): for each scale `p` in the given order, set
`self.perturbations = [p * self.get_default(v) for v in variables]` (an
unknown variable name raises before any simulation of that scale) and run
`optimize` from the state left by the previous scale.  `.ok none` marks fuel
exhaustion of the inner `while` loop. -/
def autocal_scales (eval : List ℚ → ℚ) (vars : List String)
    (ranges : String → ℚ × ℚ) (fuel : ℕ) :
    List ℚ → OptState → Except PyExc (Option OptState)
  | [], st => .ok (some st)
  | p :: rest, st =>
      match defaults_of vars with
      | .error e => .error e
      | .ok ds =>
          match optimize_go eval vars ranges (ds.map (fun d => p * d)) fuel st with
          | none => .ok none
          | some st2 => autocal_scales eval vars ranges fuel rest st2

/-- Body of `AutoCalibrator.autocalibrate` after the gage has been resolved
(`autocalibrator.py:496-519`): initialise the values from the variable
dictionary, set the sentinel `self.value = -10`, run the scale loop, and then
unconditionally run the final confirmation simulation on the calibrated model
(the returned `true`). -/
def autocal_body (eval : List ℚ → ℚ) (ranges : String → ℚ × ℚ)
    (varlist : List (String × ℚ)) (perturbations : List ℚ) (fuel : ℕ) :
    Except PyExc (Option (OptState × Bool)) :=
  match autocal_scales eval (varlist.map Prod.fst) ranges fuel perturbations
      { values := varlist.map Prod.snd, value := -10 } with
  | .error e => .error e
  | .ok none => .ok none
  | .ok (some st) => .ok (some (st, true))

/-- Entry point `AutoCalibrator.autocalibrate` (`autocalibrator.py:452-519`):
if `comid` is absent, it is looked up from `gageid` in the inverted flow-gage
map (`KeyError` if absent); if both are absent, the code prints an error and
executes a bare `raise` (Python `RuntimeError`).  Then the calibration runs. -/
def autocalibrate (eval : List ℚ → ℚ) (ranges : String → ℚ × ℚ)
    (comid gageid : Option String) (gagemap : List (String × String))
    (varlist : List (String × ℚ)) (perturbations : List ℚ) (fuel : ℕ) :
    Except PyExc (Option (OptState × Bool)) :=
  match comid, gageid with
  | none, none => .error .RuntimeError
  | none, some g =>
      match gagemap.lookup g with
      | none => .error .KeyError
      | some _ => autocal_body eval ranges varlist perturbations fuel
  | some _, _ => autocal_body eval ranges varlist perturbations fuel

/-- The parallel branch of `AutoCalibrator.perturb` (`autocalibrator.py:306-324`):
`results.get(timeout=...)` either returns all trial results in request order
or raises (a trial's exception, or `multiprocessing.TimeoutError`); any
exception is caught by the blanket `except:` which re-raises a bare
`RuntimeError`.  `outcomes` are the individual `simulate` outcomes in trial
order and `timedOut` says whether the batch exceeded the timeout. -/
def run_batch_parallel (outcomes : List (Except PyExc ℚ)) (timedOut : Bool) :
    Except PyExc (List ℚ) :=
  if timedOut then .error .RuntimeError
  else
    match collect outcomes with
    | .ok xs => .ok xs
    | .error _ => .error .RuntimeError

/-- The serial branch of `AutoCalibrator.perturb` (`autocalibrator.py:326-330`):
`[self.simulate(s) for s in simulations]` — results in order; the first
trial exception propagates unchanged; no timeout is consulted at all. -/
def run_batch_serial (outcomes : List (Except PyExc ℚ)) :
    Except PyExc (List ℚ) :=
  collect outcomes

/-- IEEE-754 style value carrier for the numpy arithmetic in
`AutoCalibrator.run` (`autocalibrator.py:224-248`): a float is `nan`, `±inf`
or an exact finite rational. -/
inductive NFloat where
  | nan
  | inf
  | neginf
  | fin (q : ℚ)
deriving DecidableEq

/-- IEEE negation. -/
def nneg : NFloat → NFloat
  | .nan => .nan
  | .inf => .neginf
  | .neginf => .inf
  | .fin q => .fin (-q)

/-- IEEE addition: `nan` propagates; `inf + (-inf) = nan`. -/
def nadd : NFloat → NFloat → NFloat
  | .nan, _ => .nan
  | _, .nan => .nan
  | .inf, .neginf => .nan
  | .neginf, .inf => .nan
  | .inf, _ => .inf
  | _, .inf => .inf
  | .neginf, _ => .neginf
  | _, .neginf => .neginf
  | .fin a, .fin b => .fin (a + b)

/-- IEEE subtraction. -/
def nsub (a b : NFloat) : NFloat := nadd a (nneg b)

/-- IEEE multiplication: `nan` propagates; `inf * 0 = nan`; sign rules. -/
def nmul : NFloat → NFloat → NFloat
  | .nan, _ => .nan
  | _, .nan => .nan
  | .fin a, .fin b => .fin (a * b)
  | .inf, .inf => .inf
  | .inf, .neginf => .neginf
  | .neginf, .inf => .neginf
  | .neginf, .neginf => .inf
  | .inf, .fin b => if b = 0 then .nan else if 0 < b then .inf else .neginf
  | .fin a, .inf => if a = 0 then .nan else if 0 < a then .inf else .neginf
  | .neginf, .fin b => if b = 0 then .nan else if 0 < b then .neginf else .inf
  | .fin a, .neginf => if a = 0 then .nan else if 0 < a then .neginf else .inf

/-- IEEE division: `nan` propagates; `inf/inf = nan`; `x/0` gives `nan` at
`x = 0` and a signed infinity otherwise (numpy semantics with a warning, no
exception); a finite value divided by an infinity is `0`. -/
def ndiv : NFloat → NFloat → NFloat
  | .nan, _ => .nan
  | _, .nan => .nan
  | .inf, .inf => .nan
  | .inf, .neginf => .nan
  | .neginf, .inf => .nan
  | .neginf, .neginf => .nan
  | .inf, .fin b => if 0 ≤ b then .inf else .neginf
  | .neginf, .fin b => if 0 ≤ b then .neginf else .inf
  | .fin _, .inf => .fin 0
  | .fin _, .neginf => .fin 0
  | .fin a, .fin b =>
      if b = 0 then (if a = 0 then .nan else if 0 < a then .inf else .neginf)
      else .fin (a / b)

/-- IEEE square (`** 2`). -/
def nsq (a : NFloat) : NFloat := nmul a a

/-- Python `sum` over an array: left fold starting from `0`. -/
def nsum (l : List NFloat) : NFloat := l.foldl nadd (.fin 0)

/-- Models `numpy.mean`: sum divided by length (empty input gives `0/0 = nan`,
numpy's behaviour, with a warning but no exception). -/
def nmean (l : List NFloat) : NFloat := ndiv (nsum l) (.fin (l.length : ℚ))

/-- Models `numpy.log` on an exact input: negative gives `nan`, zero gives `-inf`,
positive gives a finite value — modelled by the abstract `logfn`, since the
real logarithm of a rational is irrational.  numpy emits a warning on
non-positive input but raises no exception. -/
def npLog (logfn : ℚ → ℚ) (q : ℚ) : NFloat :=
  if q < 0 then .nan else if q = 0 then .neginf else .fin (logfn q)

/-- The Nash-Sutcliffe expression of `AutoCalibrator.run`
(`autocalibrator.py:231-237`): `1 - sum((sim-obs)**2) / sum((obs-mean(obs))**2)`
over `NFloat` arithmetic. -/
def nse (sim obs : List NFloat) : NFloat :=
  nsub (.fin 1)
    (ndiv (nsum ((List.zipWith nsub sim obs).map nsq))
          (nsum ((obs.map (fun o => nsub o (nmean obs))).map nsq)))

/-- The `'Nash-Sutcliffe Product'` branch of `AutoCalibrator.run`
(`autocalibrator.py:224-239`) on the already-aligned daily series: log both
series with `numpy.log`, compute the log-space NSE and the raw NSE, and
return their product.  There is no `raise` anywhere on this path. -/
def run_logproduct (logfn : ℚ → ℚ) (oflows sflows : List ℚ) :
    Except PyExc NFloat :=
  let log_o := oflows.map (npLog logfn)
  let log_s := sflows.map (npLog logfn)
  let logdNS := nse log_s log_o
  let dNS := nse (sflows.map .fin) (oflows.map .fin)
  .ok (nmul dNS logdNS)

/-- One PERLND (pervious land segment) with the parameters touched by
`AutoCalibrator.adjust`. -/
structure Perlnd where
  LZSN : ℚ
  UZSN : ℚ
  LZETP : ℚ
  INFILT : ℚ
  INTFW : ℚ
  IRC : ℚ
  AGWRC : ℚ
  DEEPFR : ℚ
deriving DecidableEq

/-- The part of an HSPF model `AutoCalibrator.adjust` operates on. -/
structure Model where
  perlnds : List Perlnd
deriving DecidableEq

/-- Embeds `AutoCalibrator.adjust` (`autocalibrator.py:154-176`): a sequence of
independent `if` statements on the variable name; seven multiplicative
parameters, `DEEPFR` additive; names are compared one by one and a name
matching none of them leaves the model untouched. -/
def adjust (m : Model) (v : String) (adjustment : ℚ) : Model :=
  let m := if v = "LZSN" then
    { m with perlnds := m.perlnds.map (fun p => { p with LZSN := p.LZSN * adjustment }) } else m
  let m := if v = "UZSN" then
    { m with perlnds := m.perlnds.map (fun p => { p with UZSN := p.UZSN * adjustment }) } else m
  let m := if v = "LZETP" then
    { m with perlnds := m.perlnds.map (fun p => { p with LZETP := p.LZETP * adjustment }) } else m
  let m := if v = "INFILT" then
    { m with perlnds := m.perlnds.map (fun p => { p with INFILT := p.INFILT * adjustment }) } else m
  let m := if v = "INTFW" then
    { m with perlnds := m.perlnds.map (fun p => { p with INTFW := p.INTFW * adjustment }) } else m
  let m := if v = "IRC" then
    { m with perlnds := m.perlnds.map (fun p => { p with IRC := p.IRC * adjustment }) } else m
  let m := if v = "AGWRC" then
    { m with perlnds := m.perlnds.map (fun p => { p with AGWRC := p.AGWRC * adjustment }) } else m
  let m := if v = "DEEPFR" then
    { m with perlnds := m.perlnds.map (fun p => { p with DEEPFR := p.DEEPFR + adjustment }) } else m
  m

/-- Concrete objective function used by the counterexample runs. -/
def evalC (l : List ℚ) : ℚ :=
  if l = [1] then 10 else if l = [2] then 11 else if l = [7/5] then 7 else 6

/-- Concrete range table used by the counterexample runs (every variable gets
the configured `LZETP` range `(0.2, 1.4)` of `autocalibrator.py:42`). -/
def rangesC (_ : String) : ℚ × ℚ := (1/5, 7/5)

end AutoCal

namespace AutoCal

theorem compute_sensitivities_getD (b : ℚ) (ts : List ℚ) (i : ℕ) (h : i < ts.length) :
    (compute_sensitivities (b :: ts)).getD i 0 = ts.getD i 0 - b := by
  induction ts generalizing i with
  | nil => simp at h
  | cons t ts ih =>
    cases i with
    | zero => simp [compute_sensitivities]
    | succ n =>
      have hn : n < ts.length := by simpa using h
      have := ih n hn
      simpa [compute_sensitivities] using this

theorem update_values_length (vs ps ss : List ℚ) :
    (update_values vs ps ss).length = vs.length := by
  induction vs generalizing ps ss with
  | nil => cases ps <;> cases ss <;> simp [update_values]
  | cons v vs ih =>
    cases ps with
    | nil => simp [update_values]
    | cons p ps =>
      cases ss with
      | nil => simp [update_values]
      | cons s ss => simp [update_values, ih]

theorem update_values_getD (vs ps ss : List ℚ) (i : ℕ)
    (hp : ps.length = vs.length) (hs : ss.length = vs.length) (hi : i < vs.length) :
    (update_values vs ps ss).getD i 0 =
      if 0 < ss.getD i 0 then pyround3 (vs.getD i 0 + ps.getD i 0) else vs.getD i 0 := by
  induction vs generalizing ps ss i with
  | nil => simp at hi
  | cons v vs ih =>
    cases ps with
    | nil => simp at hp
    | cons p ps =>
      cases ss with
      | nil => simp at hs
      | cons s ss =>
        cases i with
        | zero => simp [update_values]
        | succ n =>
          have := ih ps ss n (by simpa using hp) (by simpa using hs) (by simpa using hi)
          simpa [update_values] using this

theorem update_values_sign_congr (vs ps ss ss2 : List ℚ)
    (hs : ss.length = vs.length) (hs2 : ss2.length = vs.length)
    (h : ∀ j, j < vs.length → (0 < ss.getD j 0 ↔ 0 < ss2.getD j 0)) :
    update_values vs ps ss = update_values vs ps ss2 := by
  induction vs generalizing ps ss ss2 with
  | nil =>
    have h1 : ss = [] := List.length_eq_zero.mp hs
    have h2 : ss2 = [] := List.length_eq_zero.mp hs2
    subst h1; subst h2; rfl
  | cons v vs ih =>
    cases ps with
    | nil => rfl
    | cons p ps =>
      cases ss with
      | nil => simp at hs
      | cons s ss =>
        cases ss2 with
        | nil => simp at hs2
        | cons s2 ss2 =>
          have h0 : (0 < s ↔ 0 < s2) := by simpa using h 0 (by simp)
          have hrest : ∀ j, j < vs.length → (0 < ss.getD j 0 ↔ 0 < ss2.getD j 0) := by
            intro j hj
            simpa using h (j + 1) (by simpa using hj)
          simp only [update_values]
          congr 1
          · by_cases hc : 0 < s
            · rw [if_pos hc, if_pos (h0.mp hc)]
            · rw [if_neg hc, if_neg (fun hc2 => hc (h0.mpr hc2))]
          · exact ih ps ss ss2 (by simpa using hs) (by simpa using hs2) hrest

end AutoCal

namespace AutoCal

theorem add_at_getD (values : List ℚ) (i j : ℕ) (p : ℚ) (hj : j < values.length) :
    (add_at values i p).getD j 0 =
      if i = j then values.getD j 0 + p else values.getD j 0 := by
  induction values generalizing i j with
  | nil => simp at hj
  | cons v vs ih =>
    cases i with
    | zero =>
      cases j with
      | zero => simp [add_at]
      | succ n => simp [add_at]
    | succ m =>
      cases j with
      | zero => simp [add_at]
      | succ n =>
        have := ih m n (by simpa using hj)
        simpa [add_at, Nat.succ_inj] using this

theorem add_at_length (values : List ℚ) (i : ℕ) (p : ℚ) :
    (add_at values i p).length = values.length := by
  induction values generalizing i with
  | nil => simp [add_at]
  | cons v vs ih =>
    cases i with
    | zero => simp [add_at]
    | succ m => simp [add_at, ih]

theorem adjustments_from_length (values : List ℚ) (k : ℕ) (perts : List ℚ) :
    (adjustments_from values k perts).length = perts.length := by
  induction perts generalizing k with
  | nil => simp [adjustments_from]
  | cons p ps ih => simp [adjustments_from, ih]

theorem adjustments_from_getD (values : List ℚ) (k : ℕ) (perts : List ℚ) (i : ℕ)
    (hi : i < perts.length) :
    (adjustments_from values k perts).getD i [] =
      add_at values (k + i) (perts.getD i 0) := by
  induction perts generalizing k i with
  | nil => simp at hi
  | cons p ps ih =>
    cases i with
    | zero => simp [adjustments_from]
    | succ n =>
      have := ih (k + 1) n (by simpa using hi)
      have harith : k + 1 + n = k + (n + 1) := by omega
      simpa [adjustments_from, harith] using this

theorem trial_list_length (vars : List String) (perts : List ℚ)
    (adjs : List (List ℚ)) (n : ℕ)
    (h1 : vars.length = n) (h2 : perts.length = n) (h3 : adjs.length = n) :
    (trial_list vars perts adjs).length = n := by
  induction vars generalizing perts adjs n with
  | nil => simpa [trial_list] using h1
  | cons v vs ih =>
    cases perts with
    | nil => rw [← h1] at h2; simp at h2
    | cons p ps =>
      cases adjs with
      | nil => rw [← h1] at h3; simp at h3
      | cons a as_ =>
        cases n with
        | zero => simp at h1
        | succ m =>
          have := ih ps as_ m (by simpa using h1) (by simpa using h2) (by simpa using h3)
          simp [trial_list, this]

theorem trial_list_getD (vars : List String) (perts : List ℚ)
    (adjs : List (List ℚ)) (n i : ℕ)
    (h1 : vars.length = n) (h2 : perts.length = n) (h3 : adjs.length = n)
    (hi : i < n) :
    (trial_list vars perts adjs).getD i ("", 0, []) =
      (vars.getD i "", perts.getD i 0, adjs.getD i []) := by
  induction vars generalizing perts adjs n i with
  | nil => subst h1; simp at hi
  | cons v vs ih =>
    cases perts with
    | nil => rw [← h1] at h2; simp at h2
    | cons p ps =>
      cases adjs with
      | nil => rw [← h1] at h3; simp at h3
      | cons a as_ =>
        cases n with
        | zero => simp at h1
        | succ m =>
          cases i with
          | zero => simp [trial_list]
          | succ j =>
            have := ih ps as_ m j (by simpa using h1) (by simpa using h2)
              (by simpa using h3) (by simpa using hi)
            simpa [trial_list] using this

theorem collect_ok {outs : List (Except PyExc ℚ)} {xs : List ℚ}
    (h : collect outs = .ok xs) : outs = xs.map Except.ok := by
  induction outs generalizing xs with
  | nil =>
    simp [collect] at h
    subst h; rfl
  | cons o os ih =>
    cases o with
    | error e => simp [collect] at h
    | ok x =>
      cases hc : collect os with
      | error e => simp [collect, hc] at h
      | ok ys =>
        simp [collect, hc] at h
        subst h
        simp [ih hc]

theorem collect_error {outs : List (Except PyExc ℚ)} {e : PyExc}
    (h : collect outs = .error e) : Except.error e ∈ outs := by
  induction outs with
  | nil => simp [collect] at h
  | cons o os ih =>
    cases o with
    | error e2 =>
      simp [collect] at h
      simp [h]
    | ok x =>
      cases hc : collect os with
      | error e2 =>
        simp [collect, hc] at h
        subst h
        simp [ih hc]
      | ok ys => simp [collect, hc] at h

theorem get_default_error {v : String} {e : PyExc}
    (h : get_default v = .error e) : e = .RuntimeError := by
  simp only [get_default] at h
  split_ifs at h
  all_goals simp_all

theorem defaults_of_error_of_mem {names : List String} {v : String}
    (hv : v ∈ names) (hu : get_default v = .error .RuntimeError) :
    defaults_of names = .error .RuntimeError := by
  induction names with
  | nil => simp at hv
  | cons w ws ih =>
    rcases List.mem_cons.mp hv with h | h
    · subst h; simp [defaults_of, hu]
    · cases hg : get_default w with
      | error e =>
        have := get_default_error hg
        subst this
        simp [defaults_of, hg]
      | ok d => simp [defaults_of, hg, ih h]

end AutoCal

namespace AutoCal

theorem check_variables_spec (ranges : String → ℚ × ℚ) (vars : List String)
    (values : List ℚ) (hlen : vars.length = values.length)
    (hr : ∀ v ∈ vars, (ranges v).1 ≤ (ranges v).2) :
    (check_variables ranges vars values).1 =
      (vars.zip values).map
        (fun p => max (ranges p.1).1 (min (ranges p.1).2 p.2)) ∧
    (check_variables ranges vars values).2 =
      (vars.zip values).filterMap
        (fun p =>
          if p.2 < (ranges p.1).1 then some (p.1, p.2, (ranges p.1).1)
          else if (ranges p.1).2 < p.2 then some (p.1, p.2, (ranges p.1).2)
          else none) := by
  induction vars generalizing values with
  | nil =>
    have hv : values = [] := List.length_eq_zero.mp hlen.symm
    subst hv
    simp [check_variables]
  | cons v vs ih =>
    cases values with
    | nil => simp at hlen
    | cons x xs =>
      have hlen' : vs.length = xs.length := by simpa using hlen
      have hr0 : (ranges v).1 ≤ (ranges v).2 := hr v (by simp)
      have hr' : ∀ w ∈ vs, (ranges w).1 ≤ (ranges w).2 :=
        fun w hw => hr w (by simp [hw])
      obtain ⟨ih1, ih2⟩ := ih xs hlen' hr'
      have hhead : (if (ranges v).2 < x then (ranges v).2
          else if x < (ranges v).1 then (ranges v).1 else x) =
          max (ranges v).1 (min (ranges v).2 x) := by
        by_cases hma : (ranges v).2 < x
        · rw [if_pos hma, min_eq_left (le_of_lt hma), max_eq_right hr0]
        · rw [if_neg hma, min_eq_right (not_lt.mp hma)]
          by_cases hmi : x < (ranges v).1
          · rw [if_pos hmi, max_eq_left (le_of_lt hmi)]
          · rw [if_neg hmi, max_eq_right (not_lt.mp hmi)]
      constructor
      · simp only [check_variables, List.zip_cons_cons, List.map_cons]
        rw [hhead, ih1]
      · simp only [check_variables, List.zip_cons_cons, List.filterMap_cons]
        by_cases hmi : x < (ranges v).1
        · have hma : ¬ (ranges v).2 < x :=
            not_lt.mpr (le_of_lt (lt_of_lt_of_le hmi hr0))
          simp [hmi, hma, ih2]
        · by_cases hma : (ranges v).2 < x
          · simp [hmi, hma, ih2]
          · simp [hmi, hma, ih2]

theorem check_variables_bounds (ranges : String → ℚ × ℚ) (vars : List String)
    (values : List ℚ) (hlen : vars.length = values.length) :
    ∀ i, i < vars.length →
      (ranges (vars.getD i "")).1 ≤ (ranges (vars.getD i "")).2 →
      (ranges (vars.getD i "")).1 ≤ (check_variables ranges vars values).1.getD i 0 ∧
      (check_variables ranges vars values).1.getD i 0 ≤ (ranges (vars.getD i "")).2 := by
  induction vars generalizing values with
  | nil => intro i hi; simp at hi
  | cons v vs ih =>
    cases values with
    | nil => simp at hlen
    | cons x xs =>
      intro i hi hr
      cases i with
      | zero =>
        simp only [List.getD_cons_zero] at hr ⊢
        simp only [check_variables]
        by_cases hma : (ranges v).2 < x
        · simp [hma, hr]
        · by_cases hmi : x < (ranges v).1
          · simp [hma, hmi, hr]
          · simp [hma, hmi, not_lt.mp hma, not_lt.mp hmi]
      | succ n =>
        have := ih xs (by simpa using hlen) n (by simpa using hi) (by simpa using hr)
        simpa [check_variables] using this

theorem optimize_go_exit {eval : List ℚ → ℚ} {vars : List String}
    {ranges : String → ℚ × ℚ} {perts : List ℚ} {fuel : ℕ} {st out : OptState}
    (h : optimize_go eval vars ranges perts fuel st = some out) :
    ∃ stp, out = round_pair eval vars ranges perts stp ∧ out.value ≤ stp.value := by
  induction fuel generalizing st with
  | zero => simp [optimize_go] at h
  | succ f ih =>
    simp only [optimize_go] at h
    by_cases hc : st.value < (round_pair eval vars ranges perts st).value
    · rw [if_pos hc] at h
      exact ih h
    · rw [if_neg hc] at h
      refine ⟨st, ?_, ?_⟩
      · exact (Option.some.inj h).symm
      · rw [← Option.some.inj h]
        exact not_lt.mp hc

theorem optimize_go_continue (eval : List ℚ → ℚ) (vars : List String)
    (ranges : String → ℚ × ℚ) (perts : List ℚ) (fuel : ℕ) (st : OptState)
    (h : st.value < (round_pair eval vars ranges perts st).value) :
    optimize_go eval vars ranges perts (fuel + 1) st =
      optimize_go eval vars ranges perts fuel (round_pair eval vars ranges perts st) := by
  simp [optimize_go, h]

theorem autocal_scales_cons {eval : List ℚ → ℚ} {vars : List String}
    {ranges : String → ℚ × ℚ} {fuel : ℕ} {p : ℚ} {rest : List ℚ}
    {st st1 : OptState} {ds : List ℚ}
    (h1 : defaults_of vars = .ok ds)
    (h2 : optimize_go eval vars ranges (ds.map (fun d => p * d)) fuel st = some st1) :
    autocal_scales eval vars ranges fuel (p :: rest) st =
      autocal_scales eval vars ranges fuel rest st1 := by
  simp [autocal_scales, h1, h2]

end AutoCal

namespace AutoCal

/-- C1: in every calibration round (positive or negative), a variable whose
sensitivity is strictly positive is set to `round(value + perturbation, 3)`
while a variable whose sensitivity is `≤ 0` keeps its value, and the update
depends only on the signs of the sensitivities, never on their magnitudes
(`AutoCalibrator.optimize`, `autocalibrator.py:406-411` and `:427-432`;
both rounds run `update_values` through `do_round`). -/
theorem c1_update_rule (vs ps ss : List ℚ) (i : ℕ)
    (hp : ps.length = vs.length) (hs : ss.length = vs.length)
    (hi : i < vs.length) :
    (update_values vs ps ss).getD i 0 =
      (if 0 < ss.getD i 0 then pyround3 (vs.getD i 0 + ps.getD i 0)
       else vs.getD i 0) ∧
    ∀ ss2 : List ℚ, ss2.length = vs.length →
      (∀ j, j < vs.length → (0 < ss.getD j 0 ↔ 0 < ss2.getD j 0)) →
      update_values vs ps ss = update_values vs ps ss2 :=
  ⟨update_values_getD vs ps ss i hp hs hi,
   fun ss2 h1 h2 => update_values_sign_congr vs ps ss ss2 hs h1 h2⟩

/-- Witness for C1 at a concrete input: with sensitivities `[5, -3]` the
first value is rounded up by its perturbation and the result agrees with the
one for sensitivities `[1, -1]` of the same signs. -/
theorem c1_update_rule_witness :
    (update_values [1, 2] [1, 1] [5, -3]).getD 0 0 = pyround3 (1 + 1) ∧
    update_values [1, 2] [1, 1] [5, -3] = update_values [1, 2] [1, 1] [1, -1] := by
  have h := c1_update_rule [1, 2] [1, 1] [5, -3] 0 (by simp) (by simp) (by simp)
  refine ⟨?_, h.2 [1, -1] (by simp) ?_⟩
  · have h1 := h.1
    norm_num at h1 ⊢
    exact h1
  · intro j hj
    have hj2 : j < 2 := by simpa using hj
    interval_cases j <;> norm_num

/-- C2: for a batch of objective values `baseline :: trials`, the sensitivity
computation returns exactly one value per trial, in trial order, the `i`-th
being `trials[i] - baseline` (`AutoCalibrator.perturb`,
`autocalibrator.py:339`); the function is total on its inputs. -/
theorem c2_sensitivity_law (b : ℚ) (ts : List ℚ) :
    (compute_sensitivities (b :: ts)).length = ts.length ∧
    ∀ i, i < ts.length →
      (compute_sensitivities (b :: ts)).getD i 0 = ts.getD i 0 - b :=
  ⟨by simp [compute_sensitivities],
   fun i hi => compute_sensitivities_getD b ts i hi⟩

/-- Witness for C2 at a concrete input. -/
theorem c2_sensitivity_law_witness :
    (compute_sensitivities ((3 : ℚ) :: [5, 2])).length = 2 ∧
    (compute_sensitivities ((3 : ℚ) :: [5, 2])).getD 1 0 = 2 - 3 := by
  have h := c2_sensitivity_law 3 [5, 2]
  exact ⟨h.1, h.2 1 (by norm_num)⟩

/-- C5: the batch built by `AutoCalibrator.perturb`
(`autocalibrator.py:290-304`) with `n` calibration variables has exactly
`1 + n` trials: the baseline trial `("baseline", 0, values)` first, then one
trial per variable in order, the `i`-th perturbed vector agreeing with the
current values everywhere except coordinate `i`, where the variable's
perturbation is added. -/
theorem c5_batch_structure (vars : List String) (values perts : List ℚ)
    (hv : vars.length = values.length) (hp : perts.length = values.length) :
    (simulations vars values perts).length = 1 + values.length ∧
    (simulations vars values perts).getD 0 ("", 0, []) = ("baseline", 0, values) ∧
    ∀ i, i < values.length → ∀ j, j < values.length →
      ((simulations vars values perts).getD (i + 1) ("", 0, [])).2.2.getD j 0 =
        (if i = j then values.getD j 0 + perts.getD i 0 else values.getD j 0) := by
  refine ⟨?_, by simp [simulations], ?_⟩
  · have := trial_list_length vars perts (perturb_adjustments values perts)
      values.length hv hp
      (by rw [perturb_adjustments, adjustments_from_length]; exact hp)
    simp [simulations, this]
    omega
  · intro i hi j hj
    have hstep : (simulations vars values perts).getD (i + 1) ("", 0, []) =
        (vars.getD i "", perts.getD i 0,
          (perturb_adjustments values perts).getD i []) := by
      simp only [simulations, List.getD_cons_succ]
      exact trial_list_getD vars perts (perturb_adjustments values perts)
        values.length i hv hp
        (by rw [perturb_adjustments, adjustments_from_length]; exact hp)
        (by omega)
    rw [hstep]
    have hadj : (perturb_adjustments values perts).getD i [] =
        add_at values i (perts.getD i 0) := by
      have := adjustments_from_getD values 0 perts i (by omega)
      simpa [perturb_adjustments] using this
    simp only [hadj]
    exact add_at_getD values i j (perts.getD i 0) hj

/-- Witness for C5 at a concrete input: two variables, a perturbed trial
touches exactly its own coordinate. -/
theorem c5_batch_structure_witness :
    (simulations ["a", "b"] [1, 2] [10, 20]).length = 1 + 2 ∧
    (simulations ["a", "b"] [1, 2] [10, 20]).getD 0 ("", 0, []) =
      ("baseline", 0, [1, 2]) ∧
    ((simulations ["a", "b"] [1, 2] [10, 20]).getD 1 ("", 0, [])).2.2.getD 1 0 = 2 := by
  have h := c5_batch_structure ["a", "b"] [1, 2] [10, 20] (by simp) (by simp)
  refine ⟨h.1, h.2.1, ?_⟩
  have h3 := h.2.2 0 (by norm_num) 1 (by norm_num)
  norm_num at h3
  exact h3

end AutoCal

namespace AutoCal

/-- C9: `AutoCalibrator.check_variables` (`autocalibrator.py:363-382`)
replaces each out-of-range value by the nearest bound (`max min (min max x)`),
leaves in-range values unchanged, and emits exactly one diagnostic per
clamped variable carrying the variable name, the offending value and the
bound applied; the function is total (never fails). -/
theorem c9_clamp_contract (ranges : String → ℚ × ℚ) (vars : List String)
    (values : List ℚ) (hlen : vars.length = values.length)
    (hr : ∀ v ∈ vars, (ranges v).1 ≤ (ranges v).2) :
    (check_variables ranges vars values).1 =
      (vars.zip values).map
        (fun p => max (ranges p.1).1 (min (ranges p.1).2 p.2)) ∧
    (check_variables ranges vars values).2 =
      (vars.zip values).filterMap
        (fun p =>
          if p.2 < (ranges p.1).1 then some (p.1, p.2, (ranges p.1).1)
          else if (ranges p.1).2 < p.2 then some (p.1, p.2, (ranges p.1).2)
          else none) :=
  check_variables_spec ranges vars values hlen hr

/-- Witness for C9 at the spec's Scenario 3: value `1.5` against range
`[0.2, 1.4]` is clamped to `1.4` with one diagnostic, no failure. -/
theorem c9_clamp_contract_witness :
    (check_variables rangesC ["LZETP"] [3/2]).1 = [7/5] ∧
    (check_variables rangesC ["LZETP"] [3/2]).2 = [("LZETP", 3/2, 7/5)] := by
  have h := c9_clamp_contract rangesC ["LZETP"] [3/2] (by simp)
    (by intro v _; norm_num [rangesC])
  obtain ⟨h1, h2⟩ := h
  constructor
  · rw [h1]; norm_num [rangesC]
  · rw [h2]; norm_num [rangesC, List.filterMap_cons]

/-- C10: `AutoCalibrator.adjust` (`autocalibrator.py:154-176`) multiplies
every PERLND's parameter by the adjustment for the seven multiplicative
variables, adds the adjustment to every PERLND's `DEEPFR`, and is a silent
no-op (no error) for any other variable name. -/
theorem c10_adjust_rules (m : Model) (a : ℚ) :
    adjust m "LZSN" a =
      { perlnds := m.perlnds.map (fun p => { p with LZSN := p.LZSN * a }) } ∧
    adjust m "UZSN" a =
      { perlnds := m.perlnds.map (fun p => { p with UZSN := p.UZSN * a }) } ∧
    adjust m "LZETP" a =
      { perlnds := m.perlnds.map (fun p => { p with LZETP := p.LZETP * a }) } ∧
    adjust m "INFILT" a =
      { perlnds := m.perlnds.map (fun p => { p with INFILT := p.INFILT * a }) } ∧
    adjust m "INTFW" a =
      { perlnds := m.perlnds.map (fun p => { p with INTFW := p.INTFW * a }) } ∧
    adjust m "IRC" a =
      { perlnds := m.perlnds.map (fun p => { p with IRC := p.IRC * a }) } ∧
    adjust m "AGWRC" a =
      { perlnds := m.perlnds.map (fun p => { p with AGWRC := p.AGWRC * a }) } ∧
    adjust m "DEEPFR" a =
      { perlnds := m.perlnds.map (fun p => { p with DEEPFR := p.DEEPFR + a }) } ∧
    ∀ v, v ∉ (["LZSN", "UZSN", "LZETP", "INFILT", "INTFW", "IRC",
               "AGWRC", "DEEPFR"] : List String) →
      adjust m v a = m := by
  refine ⟨by simp [adjust], by simp [adjust], by simp [adjust], by simp [adjust],
    by simp [adjust], by simp [adjust], by simp [adjust], by simp [adjust], ?_⟩
  intro v hv
  simp only [List.mem_cons, List.not_mem_nil, or_false, not_or] at hv
  obtain ⟨h1, h2, h3, h4, h5, h6, h7, h8⟩ := hv
  simp [adjust, h1, h2, h3, h4, h5, h6, h7, h8]

/-- Witness for C10 at a concrete model: an unknown name is a silent no-op. -/
theorem c10_adjust_rules_witness :
    adjust { perlnds := [⟨1, 1, 1, 1, 1, 1, 1, 1⟩] } "AGWETP" 2 =
      { perlnds := [⟨1, 1, 1, 1, 1, 1, 1, 1⟩] } :=
  (c10_adjust_rules { perlnds := [⟨1, 1, 1, 1, 1, 1, 1, 1⟩] } 2).2.2.2.2.2.2.2.2
    "AGWETP" (by simp)

end AutoCal

namespace AutoCal

/-- C6 (amended): the trial dispatcher of `AutoCalibrator.perturb`
(`autocalibrator.py:306-330`).  In parallel mode a successful batch implies
no timeout and returns the trial results aligned in order, and every failure
— timeout or a throwing trial alike — surfaces as the single generic
`RuntimeError` (never the design document's `BatchTimeoutError` or
`BatchExecutionError`).  In serial mode a successful batch returns the
aligned results, a throwing trial propagates its own exception unchanged,
and no timeout is consulted at all (`run_batch_serial` takes none). -/
theorem c6_dispatcher_amended :
    (∀ (outs : List (Except PyExc ℚ)) (t : Bool) (xs : List ℚ),
      run_batch_parallel outs t = .ok xs →
        t = false ∧ outs = xs.map Except.ok) ∧
    (∀ (outs : List (Except PyExc ℚ)) (t : Bool) (e : PyExc),
      run_batch_parallel outs t = .error e → e = .RuntimeError) ∧
    (∀ (outs : List (Except PyExc ℚ)) (xs : List ℚ),
      run_batch_serial outs = .ok xs → outs = xs.map Except.ok) ∧
    (∀ (outs : List (Except PyExc ℚ)) (e : PyExc),
      run_batch_serial outs = .error e → Except.error e ∈ outs) := by
  refine ⟨?_, ?_, ?_, ?_⟩
  · intro outs t xs h
    cases t with
    | true => simp [run_batch_parallel] at h
    | false =>
      refine ⟨rfl, ?_⟩
      cases hc : collect outs with
      | error e => simp [run_batch_parallel, hc] at h
      | ok ys =>
        simp [run_batch_parallel, hc] at h
        subst h
        exact collect_ok hc
  · intro outs t e h
    cases t with
    | true =>
      simp [run_batch_parallel] at h
      exact h.symm
    | false =>
      cases hc : collect outs with
      | error e2 =>
        simp [run_batch_parallel, hc] at h
        exact h.symm
      | ok ys => simp [run_batch_parallel, hc] at h
  · intro outs xs h
    exact collect_ok h
  · intro outs e h
    exact collect_error h

/-- Counterexample to C6 as stated: on a timeout the parallel dispatcher
raises the generic `RuntimeError`, not `BatchTimeoutError`; a throwing serial
trial propagates its own exception (here `ValueError`), not
`BatchExecutionError` — and the serial path has no timeout parameter to
exceed in the first place. -/
theorem c6_dispatcher_counterexample :
    run_batch_parallel [Except.ok 1] true = .error .RuntimeError ∧
    PyExc.RuntimeError ≠ PyExc.BatchTimeoutError ∧
    run_batch_serial [Except.error PyExc.ValueError] = .error PyExc.ValueError ∧
    PyExc.ValueError ≠ PyExc.BatchExecutionError := by
  refine ⟨by simp [run_batch_parallel], by decide, ?_, by decide⟩
  simp [run_batch_serial, collect]

/-- Witness for C6 (amended) at concrete batches. -/
theorem c6_dispatcher_amended_witness :
    (false = false ∧
      (([Except.ok 2] : List (Except PyExc ℚ)) = ([2] : List ℚ).map Except.ok)) ∧
    PyExc.RuntimeError = PyExc.RuntimeError ∧
    (([Except.ok 3] : List (Except PyExc ℚ)) = ([3] : List ℚ).map Except.ok) ∧
    Except.error PyExc.KeyError ∈
      [Except.error PyExc.KeyError, Except.ok (1 : ℚ)] :=
  ⟨c6_dispatcher_amended.1 [Except.ok 2] false [2]
      (by simp [run_batch_parallel, collect]),
   c6_dispatcher_amended.2.1 [Except.ok 1] true PyExc.RuntimeError
      (by simp [run_batch_parallel]),
   c6_dispatcher_amended.2.2.1 [Except.ok 3] [3]
      (by simp [run_batch_serial, collect]),
   c6_dispatcher_amended.2.2.2 [Except.error PyExc.KeyError, Except.ok 1]
      PyExc.KeyError (by simp [run_batch_serial, collect])⟩

/-- C7 (amended): the log-product objective of `AutoCalibrator.run`
(`autocalibrator.py:224-239`) never raises: `numpy.log` maps `0` to `-inf`
and negative values to `nan` (with a warning, no exception), and the score is
computed with those special values propagating. -/
theorem c7_logproduct_amended (logfn : ℚ → ℚ) (o s : List ℚ) (q : ℚ)
    (e : PyExc) (hq : q < 0) :
    run_logproduct logfn o s ≠ .error e ∧
    npLog logfn 0 = .neginf ∧
    npLog logfn q = .nan := by
  refine ⟨by simp [run_logproduct], by norm_num [npLog], by simp [npLog, hq]⟩

/-- Witness for C7 (amended) at a concrete input. -/
theorem c7_logproduct_amended_witness :
    run_logproduct (fun _ => 1) [2] [3] ≠ .error .ValueError ∧
    npLog (fun _ => 1) 0 = .neginf ∧
    npLog (fun _ => 1) (-1) = .nan :=
  c7_logproduct_amended (fun _ => 1) [2] [3] (-1) .ValueError (by norm_num)

/-- Counterexample to C7 as stated: with an observed value `0` in the aligned
series (the spec's Scenario 5), the log-product evaluation does not fail with
`InvalidValueError`; it returns the float `nan` produced by `-inf`/`nan`
propagation. -/
theorem c7_logproduct_counterexample :
    (0 : ℚ) ∈ ([1, 0, 2] : List ℚ) ∧
    run_logproduct (fun _ => 0) [1, 0, 2] [1, 1, 1] = .ok .nan ∧
    (Except.ok NFloat.nan : Except PyExc NFloat) ≠ .error .InvalidValueError := by
  refine ⟨by norm_num, ?_, by simp⟩
  norm_num [run_logproduct, nse, nsum, nmean, npLog, nsq, List.zipWith, nsub,
    nadd, nneg, nmul, ndiv]

end AutoCal

namespace AutoCal

/-- C3 (amended): `AutoCalibrator.autocalibrate` processes the perturbation
scales in the order given, each scale starting from the state left by the
previous scale's converged `optimize` run; within a scale, positive+negative
round pairs repeat while each pair strictly increases the stored best
objective, and the scale terminates at the first pair that fails to strictly
increase it — including a pair that strictly decreases it
(`autocalibrator.py:389-391` and `:507-510`). -/
theorem c3_scale_loop_amended :
    (∀ (eval : List ℚ → ℚ) (vars : List String) (ranges : String → ℚ × ℚ)
        (fuel : ℕ) (p : ℚ) (rest : List ℚ) (st st1 : OptState) (ds : List ℚ),
      defaults_of vars = .ok ds →
      optimize_go eval vars ranges (ds.map (fun d => p * d)) fuel st = some st1 →
      autocal_scales eval vars ranges fuel (p :: rest) st =
        autocal_scales eval vars ranges fuel rest st1) ∧
    (∀ (eval : List ℚ → ℚ) (vars : List String) (ranges : String → ℚ × ℚ)
        (perts : List ℚ) (fuel : ℕ) (st out : OptState),
      optimize_go eval vars ranges perts fuel st = some out →
      ∃ stp, out = round_pair eval vars ranges perts stp ∧
        out.value ≤ stp.value) ∧
    (∀ (eval : List ℚ → ℚ) (vars : List String) (ranges : String → ℚ × ℚ)
        (perts : List ℚ) (fuel : ℕ) (st : OptState),
      st.value < (round_pair eval vars ranges perts st).value →
      optimize_go eval vars ranges perts (fuel + 1) st =
        optimize_go eval vars ranges perts fuel
          (round_pair eval vars ranges perts st)) :=
  ⟨fun _ _ _ _ _ _ _ _ _ h1 h2 => autocal_scales_cons h1 h2,
   fun _ _ _ _ _ _ _ h => optimize_go_exit h,
   fun eval vars ranges perts fuel st h =>
     optimize_go_continue eval vars ranges perts fuel st h⟩

/-- Counterexample to C3 as stated: a concrete run in which the loop
terminates after a pair that *changed* (strictly decreased) the best
objective.  From `values = [1]` the first pair accepts a move to `2`
(objective `11`) which the bounds clamp pulls back to `1.4`; the second pair
then finds baseline objective `7 < 11`, changes the best objective from `11`
to `7`, and the loop exits — so round pairs do not repeat until a pair
produces "no change". -/
theorem c3_scale_loop_counterexample :
    round_pair evalC ["LZETP"] rangesC [1] { values := [1], value := -10 } =
      { values := [7/5], value := 11 } ∧
    round_pair evalC ["LZETP"] rangesC [1] { values := [7/5], value := 11 } =
      { values := [7/5], value := 7 } ∧
    optimize_go evalC ["LZETP"] rangesC [1] 5 { values := [1], value := -10 } =
      some { values := [7/5], value := 7 } ∧
    (7 : ℚ) ≠ 11 := by
  refine ⟨?_, ?_, ?_, by norm_num⟩
  · norm_num [round_pair, do_round, perturb_step, simulations, trial_list,
      perturb_adjustments, adjustments_from, add_at, update_values,
      compute_sensitivities, check_variables, evalC, rangesC, pyround3]
  · norm_num [round_pair, do_round, perturb_step, simulations, trial_list,
      perturb_adjustments, adjustments_from, add_at, update_values,
      compute_sensitivities, check_variables, evalC, rangesC, pyround3]
  · norm_num [optimize_go, round_pair, do_round, perturb_step, simulations,
      trial_list, perturb_adjustments, adjustments_from, add_at, update_values,
      compute_sensitivities, check_variables, evalC, rangesC, pyround3]

/-- Witness for C3 (amended) at the concrete run: scale chaining, the exit
characterisation and one continuing step, all at explicit inputs. -/
theorem c3_scale_loop_amended_witness :
    (autocal_scales evalC ["LZSN"] rangesC 5 [20]
        { values := [1], value := -10 } =
      autocal_scales evalC ["LZSN"] rangesC 5 []
        { values := [7/5], value := 7 }) ∧
    (∃ stp, ({ values := [7/5], value := 7 } : OptState) =
        round_pair evalC ["LZETP"] rangesC [1] stp ∧
        ({ values := [7/5], value := 7 } : OptState).value ≤ stp.value) ∧
    (optimize_go evalC ["LZETP"] rangesC [1] (4 + 1)
        { values := [1], value := -10 } =
      optimize_go evalC ["LZETP"] rangesC [1] 4
        (round_pair evalC ["LZETP"] rangesC [1]
          { values := [1], value := -10 })) := by
  refine ⟨?_, ?_, ?_⟩
  · exact c3_scale_loop_amended.1 evalC ["LZSN"] rangesC 5 20 []
      { values := [1], value := -10 } { values := [7/5], value := 7 } [1/20]
      (by norm_num [defaults_of, get_default])
      (by norm_num [optimize_go, round_pair, do_round, perturb_step,
        simulations, trial_list, perturb_adjustments, adjustments_from, add_at,
        update_values, compute_sensitivities, check_variables, evalC, rangesC,
        pyround3])
  · exact c3_scale_loop_amended.2.1 evalC ["LZETP"] rangesC [1] 5
      { values := [1], value := -10 } { values := [7/5], value := 7 }
      (by norm_num [optimize_go, round_pair, do_round, perturb_step,
        simulations, trial_list, perturb_adjustments, adjustments_from, add_at,
        update_values, compute_sensitivities, check_variables, evalC, rangesC,
        pyround3])
  · exact c3_scale_loop_amended.2.2 evalC ["LZETP"] rangesC [1] 4
      { values := [1], value := -10 }
      (by norm_num [round_pair, do_round, perturb_step, simulations,
        trial_list, perturb_adjustments, adjustments_from, add_at,
        update_values, compute_sensitivities, check_variables, evalC, rangesC,
        pyround3])

end AutoCal

namespace AutoCal

/-- C4 (amended): the bounds invariant holds after every completed
positive+negative round pair — `check_variables` runs at the end of each
`while` iteration (`autocalibrator.py:444`), so every variable's value lies
in its configured inclusive range there; it does not hold after the positive
round alone (see the counterexample). -/
theorem c4_bounds_amended (eval : List ℚ → ℚ) (vars : List String)
    (ranges : String → ℚ × ℚ) (perts : List ℚ) (st : OptState)
    (hlen : vars.length = st.values.length)
    (hr : ∀ v ∈ vars, (ranges v).1 ≤ (ranges v).2) :
    ∀ i, i < vars.length →
      (ranges (vars.getD i "")).1 ≤
        (round_pair eval vars ranges perts st).values.getD i 0 ∧
      (round_pair eval vars ranges perts st).values.getD i 0 ≤
        (ranges (vars.getD i "")).2 := by
  intro i hi
  have hmem : vars.getD i "" ∈ vars := by
    rw [List.getD_eq_getElem vars "" hi]
    exact List.getElem_mem hi
  have hlen2 : vars.length =
      (update_values (update_values st.values perts
          (perturb_step eval vars st.values perts).1)
        (perts.map (fun p => -p))
        (perturb_step eval vars
          (update_values st.values perts
            (perturb_step eval vars st.values perts).1)
          (perts.map (fun p => -p))).1).length := by
    rw [update_values_length, update_values_length]
    exact hlen
  have h := check_variables_bounds ranges vars _ hlen2 i hi (hr _ hmem)
  simpa [round_pair, do_round] using h

/-- Counterexample to C4 as stated: starting from the in-range value `1`
(range `[0.2, 1.4]`), a positive round with perturbation `1` and positive
sensitivity moves the value to `2`, which is above the configured maximum —
the bounds invariant is violated immediately after a positive round, because
the clamp only runs after the negative round of the pair. -/
theorem c4_bounds_counterexample :
    (rangesC "LZETP").1 ≤ 1 ∧ (1 : ℚ) ≤ (rangesC "LZETP").2 ∧
    (do_round evalC ["LZETP"] [1] { values := [1], value := -10 }).values.getD 0 0
      = 2 ∧
    (rangesC "LZETP").2 < 2 := by
  refine ⟨by norm_num [rangesC], by norm_num [rangesC], ?_, by norm_num [rangesC]⟩
  norm_num [do_round, perturb_step, simulations, trial_list,
    perturb_adjustments, adjustments_from, add_at, update_values,
    compute_sensitivities, evalC, pyround3]

/-- Witness for C4 (amended) at a concrete pair run. -/
theorem c4_bounds_amended_witness :
    (rangesC (["LZETP"].getD 0 "")).1 ≤
      (round_pair evalC ["LZETP"] rangesC [1]
        { values := [1], value := -10 }).values.getD 0 0 ∧
    (round_pair evalC ["LZETP"] rangesC [1]
        { values := [1], value := -10 }).values.getD 0 0 ≤
      (rangesC (["LZETP"].getD 0 "")).2 :=
  c4_bounds_amended evalC ["LZETP"] rangesC [1] { values := [1], value := -10 }
    (by simp) (by intro v _; norm_num [rangesC]) 0 (by norm_num)

/-- C8 (amended): entry-point validation of `AutoCalibrator.autocalibrate`
(`autocalibrator.py:474-510`).  With neither `comid` nor `gageid` the bare
`raise` surfaces as `RuntimeError` before anything runs; with a nonempty
perturbation schedule an unknown calibration variable name raises
`RuntimeError` from `get_default` while the scale's perturbation list is
built, before any simulation (the result is independent of the objective
`eval`); but an empty perturbation schedule is not rejected — the scale loop
body never runs, no error of any kind is raised, and the final confirmation
simulation still executes (the `true` flag).  Nothing named
`ConfigurationError` is ever raised. -/
theorem c8_entry_amended :
    (∀ (eval : List ℚ → ℚ) (ranges : String → ℚ × ℚ)
        (gm : List (String × String)) (vl : List (String × ℚ))
        (perts : List ℚ) (fuel : ℕ),
      autocalibrate eval ranges none none gm vl perts fuel =
        .error .RuntimeError) ∧
    (∀ (eval : List ℚ → ℚ) (ranges : String → ℚ × ℚ) (c : String)
        (gid : Option String) (gm : List (String × String))
        (vl : List (String × ℚ)) (p : ℚ) (rest : List ℚ) (fuel : ℕ)
        (v : String),
      v ∈ vl.map Prod.fst → get_default v = .error .RuntimeError →
      autocalibrate eval ranges (some c) gid gm vl (p :: rest) fuel =
        .error .RuntimeError) ∧
    (∀ (eval : List ℚ → ℚ) (ranges : String → ℚ × ℚ) (c : String)
        (gid : Option String) (gm : List (String × String))
        (vl : List (String × ℚ)) (fuel : ℕ),
      autocalibrate eval ranges (some c) gid gm vl [] fuel =
        .ok (some ({ values := vl.map Prod.snd, value := -10 }, true))) := by
  refine ⟨?_, ?_, ?_⟩
  · intro eval ranges gm vl perts fuel
    rfl
  · intro eval ranges c gid gm vl p rest fuel v hv hu
    have hd := defaults_of_error_of_mem hv hu
    simp [autocalibrate, autocal_body, autocal_scales, hd]
  · intro eval ranges c gid gm vl fuel
    simp [autocalibrate, autocal_body, autocal_scales]

/-- Counterexample to C8 as stated: an empty perturbation schedule together
with an unknown calibration variable name is not rejected at all — no
`ConfigurationError`, no error of any kind; the call succeeds and the final
confirmation simulation runs (the `true` flag), so "fails fatally at the
entry point, no simulation ever partially run" is false. -/
theorem c8_entry_counterexample :
    autocalibrate evalC rangesC (some "outlet") none [] [("BOGUS", 1)] [] 3 =
      .ok (some ({ values := [1], value := -10 }, true)) ∧
    get_default "BOGUS" = .error .RuntimeError := by
  constructor
  · norm_num [autocalibrate, autocal_body, autocal_scales]
  · simp [get_default]

/-- Witness for C8 (amended) at concrete inputs. -/
theorem c8_entry_amended_witness :
    (autocalibrate evalC rangesC none none [] [("LZSN", 1)] [2] 3 =
      .error .RuntimeError) ∧
    (autocalibrate evalC rangesC (some "100") none [] [("BOGUS", 1)] [2] 3 =
      .error .RuntimeError) ∧
    (autocalibrate evalC rangesC (some "100") none [] [("LZSN", 1)] [] 3 =
      .ok (some ({ values := [1], value := -10 }, true))) :=
  ⟨c8_entry_amended.1 evalC rangesC [] [("LZSN", 1)] [2] 3,
   c8_entry_amended.2.1 evalC rangesC "100" none [] [("BOGUS", 1)] 2 [] 3
     "BOGUS" (by simp) (by simp [get_default]),
   c8_entry_amended.2.2 evalC rangesC "100" none [] [("LZSN", 1)] 3⟩

end AutoCal
